import Mathlib

/-!
Verification of the warehouse-management backend's document-lifecycle and
stock-ledger subsystem, shallowly embedded from the Python/Django source
(`backend/inventory`, `backend/operations`, `backend/analytics`).

Modelling conventions:
* A Python `str` used as a document number is embedded as `List Char`
  (named `Str` below); the database's lexicographic ordering on the
  number column is code-point order on those characters.
* `Decimal` money fields are embedded as `Int`: the only operations the
  code performs on them (addition, subtraction, multiplication by an
  integer quantity) are exact in decimal arithmetic, so an integer
  embedding at a fixed scale is faithful.
* Nullable columns are `Option` values; Python truthiness tests on them
  (`if not self.x`, `if self.unit_cost`) are translated accordingly.
* A `DateTimeField` receives, in the reviewed code, either a genuine
  time or the request's raw host string (`request._get_raw_host()`),
  so its value type `DTVal` distinguishes the two.
-/

namespace WMS

/-- A Python string, embedded as its list of characters. -/
abbrev Str := List Char

/-- The character for decimal digit `d` (code point `48 + d`). -/
def digitChar (d : Nat) : Char := Char.ofNat (48 + d)

/-- Decimal rendering, with explicit fuel so that it is structurally
recursive; `fuel > n` always suffices since the argument shrinks by a
factor of ten each step. -/
def decDigitsAux : Nat → Nat → Str
  | 0, _ => []
  | f + 1, n =>
    if n < 10 then [digitChar n]
    else decDigitsAux f (n / 10) ++ [digitChar (n % 10)]

/-- Decimal rendering of a natural number, as Python `str(n)` produces. -/
def decDigits (n : Nat) : Str := decDigitsAux (n + 1) n

/-- Python `f"{n:03d}"`: the decimal rendering left-padded with zeros to
width at least 3. -/
def pad3 (n : Nat) : Str :=
  List.replicate (3 - (decDigits n).length) '0' ++ decDigits n

/-- Lexicographic (code-point) comparison of strings; the order the
database uses on the document-number column for `order_by`. -/
def strLtb : Str → Str → Bool
  | [], [] => false
  | [], _ :: _ => true
  | _ :: _, [] => false
  | a :: as, b :: bs =>
    if a.toNat < b.toNat then true
    else if b.toNat < a.toNat then false
    else strLtb as bs

/-- Python `s.startswith(p)`, i.e. the ORM `__startswith` lookup. -/
def startsWithb : Str → Str → Bool
  | [], _ => true
  | _ :: _, [] => false
  | a :: as, b :: bs => a == b && startsWithb as bs

/-- Python `s.split('-')`. -/
def splitDash : Str → List Str
  | [] => [[]]
  | c :: cs =>
    if c = '-' then [] :: splitDash cs
    else
      match splitDash cs with
      | [] => [[c]]
      | g :: gs => (c :: g) :: gs

/-- Python `int(s)` on a digit string. -/
def parseNat (s : Str) : Nat := s.foldl (fun a c => a * 10 + (c.toNat - 48)) 0

/-- One step of taking the maximum document number. -/
def maxStep (acc : Option Str) (s : Str) : Option Str :=
  match acc with
  | none => some s
  | some m => if strLtb m s then some s else some m

/-- Model of `filter(...).order_by('-no').first()`: the largest string of the
list under the column order, `none` when the list is empty. -/
def strMax (l : List Str) : Option Str := l.foldl maxStep none

/-- The `f'{PREFIX}-{year}-'` string each `save` filters with. -/
def prefYear (pre : Str) (year : Nat) : Str :=
  pre ++ ['-'] ++ decDigits year ++ ['-']

/-- The generated number `f'{PREFIX}-{year}-{n:03d}'`. -/
def mkDocNo (pre : Str) (year : Nat) (n : Nat) : Str :=
  prefYear pre year ++ pad3 n

/-- The sequence number each `save` computes: one more than the number
parsed from the last dash-separated segment of the largest matching
existing number, or 1 when none matches.  This is the shared body of
`Adjustment.save`, `Transfer.save`, `Receiving.save`, `Shipment.save`,
`Return.save` and `Order.save`. -/
def nextSeq (pre : Str) (year : Nat) (existing : List Str) : Nat :=
  let matching := existing.filter (fun s => startsWithb (prefYear pre year) s)
  match strMax matching with
  | none => 1
  | some last => parseNat ((splitDash last).getLastD []) + 1

/-- The document number assigned by `save` when none is present. -/
def nextDocNo (pre : Str) (year : Nat) (existing : List Str) : Str :=
  mkDocNo pre year (nextSeq pre year existing)

/-- The `if not self.<doc>_no:` guard of every `save`: a pre-assigned
number is kept, otherwise the next number is generated. -/
def assignDocNo (docNo : Option Str) (pre : Str) (year : Nat)
    (existing : List Str) : Str :=
  match docNo with
  | some n => n
  | none => nextDocNo pre year existing

/-- Sequentially create `k` documents of one type (none with a
pre-assigned number) on top of the store `existing`, each `save`
appending the number it generated. -/
def createDocs (pre : Str) (year : Nat) (existing : List Str) : Nat → List Str
  | 0 => existing
  | k + 1 =>
    let e := createDocs pre year existing k
    e ++ [assignDocNo none pre year e]

/-- Document-type prefixes used by the six models. -/
def ADJ : Str := ['A', 'D', 'J']

def TRF : Str := ['T', 'R', 'F']

def RCV : Str := ['R', 'C', 'V']

def SHP : Str := ['S', 'H', 'P']

def RTN : Str := ['R', 'T', 'N']

def ORD : Str := ['O', 'R', 'D']

example : nextDocNo ADJ 2025 [] = mkDocNo ADJ 2025 1 := by decide

example : createDocs ADJ 2025 [] 2
    = [mkDocNo ADJ 2025 1, mkDocNo ADJ 2025 2] := by decide

theorem digitChar_toNat (d : Nat) (h : d < 10) : (digitChar d).toNat = 48 + d := by
  interval_cases d <;> decide

theorem decDigitsAux_fuel (n : Nat) :
    ∀ f1 f2, n < f1 → n < f2 → decDigitsAux f1 n = decDigitsAux f2 n := by
  induction n using Nat.strong_induction_on with
  | _ n ih =>
    intro f1 f2 h1 h2
    rcases f1 with _ | g1
    · omega
    rcases f2 with _ | g2
    · omega
    by_cases h : n < 10
    · simp [decDigitsAux, h]
    · simp only [decDigitsAux, if_neg h]
      rw [ih (n / 10) (by omega) g1 g2 (by omega) (by omega)]

theorem decDigits_lt (n : Nat) (h : n < 10) : decDigits n = [digitChar n] := by
  simp [decDigits, decDigitsAux, h]

theorem decDigits_ge (n : Nat) (h : ¬ n < 10) :
    decDigits n = decDigits (n / 10) ++ [digitChar (n % 10)] := by
  have step : decDigitsAux (n + 1) n
      = decDigitsAux n (n / 10) ++ [digitChar (n % 10)] := by
    rw [decDigitsAux, if_neg h]
  show decDigitsAux (n + 1) n = decDigitsAux (n / 10 + 1) (n / 10) ++ _
  rw [step, decDigitsAux_fuel (n / 10) n (n / 10 + 1) (by omega) (by omega)]

theorem decDigits_mem (n : Nat) :
    ∀ c ∈ decDigits n, 48 ≤ c.toNat ∧ c.toNat ≤ 57 := by
  induction n using Nat.strong_induction_on with
  | _ n ih =>
    by_cases h : n < 10
    · rw [decDigits_lt n h]
      intro c hc
      rw [List.mem_singleton] at hc
      subst hc
      rw [digitChar_toNat n h]
      omega
    · rw [decDigits_ge n h]
      intro c hc
      rcases List.mem_append.mp hc with h1 | h2
      · exact ih (n / 10) (by omega) c h1
      · rw [List.mem_singleton] at h2
        subst h2
        rw [digitChar_toNat (n % 10) (by omega)]
        omega

theorem decDigits_ne_dash (n : Nat) : ∀ c ∈ decDigits n, c ≠ '-' := by
  intro c hc he
  have hb := decDigits_mem n c hc
  subst he
  have : ('-' : Char).toNat = 45 := by decide
  omega

theorem pad3_eq (n : Nat) (h : n ≤ 999) :
    pad3 n = [digitChar (n / 100), digitChar (n / 10 % 10), digitChar (n % 10)] := by
  have h0 : digitChar 0 = '0' := by decide
  unfold pad3
  by_cases h1 : n < 10
  · rw [decDigits_lt n h1]
    have e1 : n / 100 = 0 := by omega
    have e2 : n / 10 % 10 = 0 := by omega
    have e3 : n % 10 = n := by omega
    rw [e1, e2, e3, h0]
    rfl
  · by_cases h2 : n < 100
    · rw [decDigits_ge n h1, decDigits_lt (n / 10) (by omega)]
      have e1 : n / 100 = 0 := by omega
      have e2 : n / 10 % 10 = n / 10 := by omega
      rw [e1, e2, h0]
      rfl
    · rw [decDigits_ge n h1, decDigits_ge (n / 10) (by omega),
        decDigits_lt (n / 10 / 10) (by omega)]
      have e1 : n / 10 / 10 = n / 100 := by omega
      rw [e1]
      rfl

theorem pad3_ne_dash (n : Nat) : ∀ c ∈ pad3 n, c ≠ '-' := by
  intro c hc
  unfold pad3 at hc
  rcases List.mem_append.mp hc with h | h
  · have := List.eq_of_mem_replicate h
    subst this
    decide
  · exact decDigits_ne_dash n c h

theorem strLtb_cons (c : Char) (x y : Str) :
    strLtb (c :: x) (c :: y) = strLtb x y := by
  simp [strLtb]

theorem strLtb_append (p x y : Str) :
    strLtb (p ++ x) (p ++ y) = strLtb x y := by
  induction p with
  | nil => rfl
  | cons c cs ih => simpa [strLtb_cons] using ih

theorem strLtb_irrefl (x : Str) : strLtb x x = false := by
  induction x with
  | nil => rfl
  | cons c cs ih => rw [strLtb_cons]; exact ih

theorem strLtb_pad3 (i j : Nat) (hj : j ≤ 999) (hij : i < j) :
    strLtb (pad3 i) (pad3 j) = true := by
  rw [pad3_eq i (by omega), pad3_eq j hj]
  have a2 := digitChar_toNat (i / 100) (by omega)
  have a1 := digitChar_toNat (i / 10 % 10) (by omega)
  have a0 := digitChar_toNat (i % 10) (by omega)
  have b2 := digitChar_toNat (j / 100) (by omega)
  have b1 := digitChar_toNat (j / 10 % 10) (by omega)
  have b0 := digitChar_toNat (j % 10) (by omega)
  simp only [strLtb, a2, a1, a0, b2, b1, b0]
  split_ifs <;> first | rfl | omega

theorem startsWithb_append (p x : Str) : startsWithb p (p ++ x) = true := by
  induction p with
  | nil => rfl
  | cons c cs ih => simp [startsWithb, ih]

theorem splitDash_no_dash (xs : Str) (h : ∀ c ∈ xs, c ≠ '-') :
    splitDash xs = [xs] := by
  induction xs with
  | nil => rfl
  | cons c cs ih =>
    have hc : c ≠ '-' := h c (by simp)
    have hcs : ∀ d ∈ cs, d ≠ '-' := fun d hd => h d (List.mem_cons_of_mem c hd)
    simp [splitDash, hc, ih hcs]

theorem splitDash_append (xs ys : Str) (h : ∀ c ∈ xs, c ≠ '-') :
    splitDash (xs ++ '-' :: ys) = xs :: splitDash ys := by
  induction xs with
  | nil => simp [splitDash]
  | cons c cs ih =>
    have hc : c ≠ '-' := h c (by simp)
    have hcs : ∀ d ∈ cs, d ≠ '-' := fun d hd => h d (List.mem_cons_of_mem c hd)
    simp [splitDash, hc, ih hcs]

theorem splitDash_mkDocNo (pre : Str) (year n : Nat) (hpre : ∀ c ∈ pre, c ≠ '-') :
    (splitDash (mkDocNo pre year n)).getLastD [] = pad3 n := by
  have hform : mkDocNo pre year n
      = pre ++ '-' :: (decDigits year ++ '-' :: pad3 n) := by
    simp [mkDocNo, prefYear]
  rw [hform, splitDash_append _ _ hpre,
    splitDash_append _ _ (decDigits_ne_dash year),
    splitDash_no_dash (pad3 n) (pad3_ne_dash n)]
  rfl

theorem parseNat_pad3 (n : Nat) (h : n ≤ 999) : parseNat (pad3 n) = n := by
  rw [pad3_eq n h]
  have a2 := digitChar_toNat (n / 100) (by omega)
  have a1 := digitChar_toNat (n / 10 % 10) (by omega)
  have a0 := digitChar_toNat (n % 10) (by omega)
  simp only [parseNat, List.foldl, a2, a1, a0]
  omega

theorem strMax_append_one (l : List Str) (s : Str) :
    strMax (l ++ [s]) = maxStep (strMax l) s := by
  unfold strMax
  rw [List.foldl_append]
  rfl

theorem filter_matching (pre : Str) (year : Nat) (existing : List Str)
    (hex : ∀ s ∈ existing, startsWithb (prefYear pre year) s = false) (k : Nat) :
    (existing ++ (List.range k).map (fun i => mkDocNo pre year (i + 1))).filter
        (fun s => startsWithb (prefYear pre year) s)
      = (List.range k).map (fun i => mkDocNo pre year (i + 1)) := by
  rw [List.filter_append]
  have h1 : existing.filter (fun s => startsWithb (prefYear pre year) s) = [] := by
    rw [List.filter_eq_nil_iff]
    intro s hs
    simp [hex s hs]
  have h2 : ((List.range k).map (fun i => mkDocNo pre year (i + 1))).filter
      (fun s => startsWithb (prefYear pre year) s)
      = (List.range k).map (fun i => mkDocNo pre year (i + 1)) := by
    rw [List.filter_eq_self]
    intro s hs
    rcases List.mem_map.mp hs with ⟨i, _, rfl⟩
    simpa [mkDocNo] using startsWithb_append (prefYear pre year) (pad3 (i + 1))
  rw [h1, h2, List.nil_append]

theorem strMax_range (pre : Str) (year : Nat) (k : Nat) (hk : k ≤ 999)
    (h1 : 1 ≤ k) :
    strMax ((List.range k).map (fun i => mkDocNo pre year (i + 1)))
      = some (mkDocNo pre year k) := by
  induction k with
  | zero => omega
  | succ k ih =>
    rcases Nat.eq_zero_or_pos k with h0 | hpos
    · subst h0
      rfl
    · rw [List.range_succ, List.map_append, List.map_singleton,
        strMax_append_one, ih (by omega) hpos]
      have hlt : strLtb (mkDocNo pre year k) (mkDocNo pre year (k + 1)) = true := by
        unfold mkDocNo
        rw [strLtb_append]
        exact strLtb_pad3 k (k + 1) (by omega) (by omega)
      simp [maxStep, hlt]

theorem nextSeq_state (pre : Str) (year : Nat) (existing : List Str)
    (hpre : ∀ c ∈ pre, c ≠ '-')
    (hex : ∀ s ∈ existing, startsWithb (prefYear pre year) s = false)
    (k : Nat) (hk : k ≤ 999) :
    nextSeq pre year
        (existing ++ (List.range k).map (fun i => mkDocNo pre year (i + 1)))
      = k + 1 := by
  unfold nextSeq
  simp only [filter_matching pre year existing hex k]
  rcases Nat.eq_zero_or_pos k with h0 | hpos
  · subst h0
    rfl
  · rw [strMax_range pre year k hk hpos]
    simp only
    rw [splitDash_mkDocNo pre year k hpre, parseNat_pad3 k hk]

theorem createDocs_eq (pre : Str) (year : Nat) (existing : List Str)
    (hpre : ∀ c ∈ pre, c ≠ '-')
    (hex : ∀ s ∈ existing, startsWithb (prefYear pre year) s = false) :
    ∀ k, k ≤ 999 →
      createDocs pre year existing k
        = existing ++ (List.range k).map (fun i => mkDocNo pre year (i + 1)) := by
  intro k
  induction k with
  | zero => intro _; simp [createDocs]
  | succ k ih =>
    intro hk
    have ihk := ih (by omega)
    have hstep : createDocs pre year existing (k + 1)
        = createDocs pre year existing k
          ++ [assignDocNo none pre year (createDocs pre year existing k)] := rfl
    rw [hstep, ihk]
    show _ ++ [nextDocNo pre year _] = _
    unfold nextDocNo
    rw [nextSeq_state pre year existing hpre hex k (by omega)]
    rw [List.range_succ, List.map_append, List.map_singleton, List.append_assoc]

/-- C1: for every document-type prefix (ADJ, TRF, RCV, SHP, RTN, ORD) and
every year, sequentially creating `N ≤ 999` documents with no pre-assigned
number, starting from a store with no document of that prefix and year,
assigns exactly the numbers `PREFIX-YYYY-001 .. PREFIX-YYYY-NNN` in order,
with no duplicates, each step's sequence number being exactly one greater
than the highest existing one (1 when none exists). -/
theorem c1_sequential_numbering (pre : Str) (year N : Nat) (existing : List Str)
    (hpre : pre ∈ [ADJ, TRF, RCV, SHP, RTN, ORD])
    (hN : N ≤ 999)
    (hex : ∀ s ∈ existing, startsWithb (prefYear pre year) s = false) :
    createDocs pre year existing N
        = existing ++ (List.range N).map (fun i => mkDocNo pre year (i + 1))
      ∧ ((List.range N).map (fun i => mkDocNo pre year (i + 1))).Nodup
      ∧ ∀ k, k < N →
          nextSeq pre year (createDocs pre year existing k) = k + 1 := by
  have hpre' : ∀ c ∈ pre, c ≠ '-' := by
    fin_cases hpre <;> decide
  have hmkne : ∀ a b : Nat, a < b → b + 1 ≤ 999 →
      mkDocNo pre year (a + 1) ≠ mkDocNo pre year (b + 1) := by
    intro a b hab hb he
    have h1 : strLtb (mkDocNo pre year (a + 1)) (mkDocNo pre year (b + 1)) = true := by
      unfold mkDocNo
      rw [strLtb_append]
      exact strLtb_pad3 (a + 1) (b + 1) (by omega) (by omega)
    rw [he, strLtb_irrefl] at h1
    exact Bool.false_ne_true h1
  refine ⟨createDocs_eq pre year existing hpre' hex N hN, ?_, ?_⟩
  · refine List.Nodup.map_on ?_ (List.nodup_range N)
    intro i hi j hj heq
    rw [List.mem_range] at hi hj
    rcases lt_trichotomy i j with h | h | h
    · exact absurd heq (hmkne i j h (by omega))
    · exact h
    · exact absurd heq.symm (hmkne j i h (by omega))
  · intro k hk
    rw [createDocs_eq pre year existing hpre' hex k (by omega)]
    exact nextSeq_state pre year existing hpre' hex k (by omega)

/-- Witness for C1 at prefix ADJ, year 2025, empty store, N = 2. -/
theorem c1_witness :
    ADJ ∈ [ADJ, TRF, RCV, SHP, RTN, ORD]
      ∧ 2 ≤ 999
      ∧ (createDocs ADJ 2025 [] 2
            = [] ++ (List.range 2).map (fun i => mkDocNo ADJ 2025 (i + 1))
          ∧ ((List.range 2).map (fun i => mkDocNo ADJ 2025 (i + 1))).Nodup
          ∧ ∀ k, k < 2 →
              nextSeq ADJ 2025 (createDocs ADJ 2025 [] k) = k + 1) :=
  ⟨by decide, by decide,
    c1_sequential_numbering ADJ 2025 2 [] (by decide) (by decide)
      (by intro s hs; simp at hs)⟩

/-- Value stored in a `DateTimeField`: either a genuine time or the raw
host string the reviewed views write (`request._get_raw_host()`). -/
inductive DTVal where
  | time (t : Nat)
  | host (h : String)
deriving DecidableEq

/-- The parts of an HTTP request the modelled views read: the
authenticated user, `request._get_raw_host()`, and the payload fields
`reason`, `carrier`, `tracking_number`, `refund_amount`. -/
structure Request where
  user : Nat
  rawHost : String
  reason : String
  carrier : Option String
  trackingNumber : Option String
  refundAmount : Option Int
deriving DecidableEq

/-- A view's outcome: the document row after the call and the HTTP
status code of the response (200 from `Response(serializer.data)`,
400/404 from the error responses). -/
structure EndpointResult (σ : Type) where
  doc : σ
  httpStatus : Nat
deriving DecidableEq

/-- Model of `inventory.models.Transfer`, restricted to the fields the claims
mention. -/
structure Transfer where
  transfer_no : Option Str
  product_id : Nat
  quantity : Nat
  status : String
  approved_by : Option Nat
  transferred_by : Option Nat
  approved_at : Option DTVal
  transferred_at : Option DTVal
deriving DecidableEq

/-- Model of `Transfer.save`: assign the next TRF number when none is set. -/
def transferSave (year : Nat) (existing : List Str) (t : Transfer) : Transfer :=
  { t with transfer_no := some (assignDocNo t.transfer_no TRF year existing) }

/-- Model of `TransferViewSet.execute`. -/
def transferExecute (year : Nat) (existing : List Str) (req : Request)
    (t : Transfer) : EndpointResult Transfer :=
  if t.status ≠ "approved" then ⟨t, 400⟩
  else
    ⟨transferSave year existing
      { t with
        transferred_by := some req.user,
        transferred_at := some (DTVal.host req.rawHost),
        status := "completed" }, 200⟩

/-- Model of `inventory.models.Adjustment`, restricted to the fields the claims
mention. -/
structure Adjustment where
  adjustment_no : Option Str
  previous_qty : Int
  adjusted_qty : Int
  approved_by : Option Nat
  approved_at : Option DTVal
deriving DecidableEq

/-- Model of `Adjustment.save`: assign the next ADJ number when none is set. -/
def adjustmentSave (year : Nat) (existing : List Str) (a : Adjustment) :
    Adjustment :=
  { a with adjustment_no := some (assignDocNo a.adjustment_no ADJ year existing) }

/-- Model of `AdjustmentViewSet.approve`. -/
def adjustmentApprove (year : Nat) (existing : List Str) (req : Request)
    (a : Adjustment) : EndpointResult Adjustment :=
  match a.approved_by with
  | some _ => ⟨a, 400⟩
  | none =>
    ⟨adjustmentSave year existing
      { a with
        approved_by := some req.user,
        approved_at := some (DTVal.host req.rawHost) }, 200⟩

/-- Model of `operations.models.Order`, restricted to the fields the claims
mention. -/
structure Order where
  order_no : Option Str
  subtotal : Int
  tax_amount : Int
  shipping_amount : Int
  discount_amount : Int
  total_amount : Int
  status : String
  processed_by : Option Nat
  processed_at : Option DTVal
  shipped_at : Option DTVal
  delivered_at : Option DTVal
deriving DecidableEq

/-- Model of `Order.save`: assign the next ORD number when none is set, and
recompute `total_amount = subtotal + tax + shipping - discount`. -/
def orderSave (year : Nat) (existing : List Str) (o : Order) : Order :=
  { o with
    order_no := some (assignDocNo o.order_no ORD year existing),
    total_amount :=
      o.subtotal + o.tax_amount + o.shipping_amount - o.discount_amount }

/-- Model of `inventory.models.Stock`, restricted to the fields the claims
mention.  `Decimal` cost fields are embedded as `Int` (exact for the
operations performed). -/
structure Stock where
  quantity_available : Nat
  quantity_reserved : Nat
  quantity_allocated : Nat
  unit_cost : Option Int
  total_value : Option Int
deriving DecidableEq

/-- Model of `Stock.quantity_total`. -/
def quantity_total (s : Stock) : Nat :=
  s.quantity_available + s.quantity_reserved + s.quantity_allocated

/-- Model of `Stock.save`: recompute `total_value` only when both `unit_cost` and
`quantity_total` are truthy (`if self.unit_cost and self.quantity_total:`). -/
def stockSave (s : Stock) : Stock :=
  match s.unit_cost with
  | none => s
  | some c =>
    if c ≠ 0 ∧ quantity_total s ≠ 0 then
      { s with total_value := some (c * (quantity_total s : Int)) }
    else s

/-- The relational store as the endpoints touch it: the Stock table and
the two inventory document tables. -/
structure DB where
  stocks : List Stock
  transfers : List Transfer
  adjustments : List Adjustment
deriving DecidableEq

/-- Model of `TransferViewSet.execute` at store level: `get_object` (404 when the
row is missing) followed by the transition and `save` of that single
row.  The comment in the source marks the stock-movement logic as not
implemented; accordingly no Stock row is touched. -/
def transferExecuteDB (year : Nat) (req : Request) (db : DB) (i : Nat) :
    DB × Nat :=
  match db.transfers[i]? with
  | none => (db, 404)
  | some t =>
    let r := transferExecute year
      (db.transfers.filterMap (fun u => u.transfer_no)) req t
    ({ db with transfers := db.transfers.set i r.doc }, r.httpStatus)

/-- Model of `AdjustmentViewSet.approve` at store level. -/
def adjustmentApproveDB (year : Nat) (req : Request) (db : DB) (i : Nat) :
    DB × Nat :=
  match db.adjustments[i]? with
  | none => (db, 404)
  | some a =>
    let r := adjustmentApprove year
      (db.adjustments.filterMap (fun u => u.adjustment_no)) req a
    ({ db with adjustments := db.adjustments.set i r.doc }, r.httpStatus)

/-- A row of the stock table together with the joined
`product__reorder_point` column (a resolvable lookup), and — only to
spell out the text of the written filter, which is never applied — the
buffer minimum its unresolvable `stock_buffers` lookup tries to reach. -/
structure StockRow where
  quantity_available : Nat
  reorder_point : Nat
  buffer_min : Option Nat
deriving DecidableEq

/-- Outcome of an ORM `filter(...)` call: either the matching rows, or
the `FieldError` Django raises while resolving a filter keyword, naming
the keyword that resolves to no field or relation of the model. -/
inductive QueryResult (α : Type) where
  | ok (rows : List α)
  | fieldError (keyword : String)
deriving DecidableEq

/-- Names resolvable in a filter on the `Stock` model: the primary key,
Stock's own columns (including the inherited audit columns), and its
forward relations.  No model in the schema declares a foreign key to
`Stock`, so no reverse relation name resolves here; in particular
`related_name='stock_buffers'` is declared on `StockBuffer.warehouse`
and therefore resolves only on `Warehouse`. -/
def stockModelFields : List String :=
  ["id", "created_at", "updated_at", "created_by", "updated_by",
   "product", "warehouse", "location",
   "quantity_available", "quantity_reserved", "quantity_allocated",
   "lot_number", "expiry_date", "manufacturing_date",
   "unit_cost", "total_value"]

/-- Model of a Django `filter(...)` call: every lookup path (written
`a__b` in the source, embedded as its list of segments) must have its
head resolve against the model's field and relation names; the first
head that does not resolve makes the ORM raise `FieldError` naming it,
before any row is examined.  Only when every lookup resolves is the
filter predicate applied to the rows. -/
def ormFilter (fields : List String) (lookups : List (List String))
    (p : α → Bool) (rows : List α) : QueryResult α :=
  match lookups.find? (fun l => !(fields.contains (l.headD ""))) with
  | some l => QueryResult.fieldError (l.headD "")
  | none => QueryResult.ok (rows.filter p)

/-- The lookup paths of the `StockViewSet.low_stock` filter, in source
order: `quantity_available__lte`, `F('product__reorder_point')`,
`stock_buffers__minimum_quantity__isnull`, `quantity_available__lte`,
`F('stock_buffers__minimum_quantity')`. -/
def lowStockFilterLookups : List (List String) :=
  [["quantity_available"], ["product", "reorder_point"],
   ["stock_buffers", "minimum_quantity"],
   ["quantity_available"], ["stock_buffers", "minimum_quantity"]]

/-- The filter expression of `low_stock` as the source spells it out:
at or below the product's reorder point, or a buffer minimum exists and
the quantity is at or below it.  The ORM never applies it, because
resolving the `stock_buffers` lookup fails first (see `low_stock`). -/
def lowStockCond (r : StockRow) : Bool :=
  decide (r.quantity_available ≤ r.reorder_point)
    || (match r.buffer_min with
        | some m => decide (r.quantity_available ≤ m)
        | none => false)

/-- Model of `StockViewSet.low_stock`: the view filters `Stock` with
`lowStockFilterLookups`; the head `stock_buffers` of the third lookup
resolves to no field or relation of `Stock`, so every call raises
`FieldError` — an unhandled exception surfaced as HTTP 500 — and the
endpoint never produces any rows. -/
def low_stock (rows : List StockRow) : QueryResult StockRow :=
  ormFilter stockModelFields lowStockFilterLookups lowStockCond rows

/-- The lookup paths of the `analytics.views.low_stock_report` filter:
`quantity_available__lte` and `F('product__reorder_point')`, which both
resolve on `Stock`. -/
def lowStockReportLookups : List (List String) :=
  [["quantity_available"], ["product", "reorder_point"]]

/-- The filter of `analytics.views.low_stock_report`: only
`quantity_available <= product.reorder_point` (no buffer clause). -/
def lowStockReportCond (r : StockRow) : Bool :=
  decide (r.quantity_available ≤ r.reorder_point)

/-- Model of `analytics.views.low_stock_report`: the rows passing
`lowStockReportCond` (the report's per-row projection is dropped;
membership is what the claim is about). -/
def low_stock_report (rows : List StockRow) : List StockRow :=
  rows.filter lowStockReportCond

def s0 : Stock := ⟨0, 0, 0, some 5, some 7⟩

def s1 : Stock := ⟨2, 0, 0, some 5, none⟩

def rowLow : StockRow := ⟨1, 2, none⟩

/-- C4: `Transfer.execute` and `Adjustment.approve` touch only their own
document table: the Stock table (and the other document table) after the
call is exactly the one before it — the stock-ledger side effect is not
implemented. -/
theorem c4_no_stock_mutation :
    ∀ (year : Nat) (req : Request) (db : DB) (i : Nat),
      (transferExecuteDB year req db i).1.stocks = db.stocks
      ∧ (transferExecuteDB year req db i).1.adjustments = db.adjustments
      ∧ (adjustmentApproveDB year req db i).1.stocks = db.stocks
      ∧ (adjustmentApproveDB year req db i).1.transfers = db.transfers := by
  intro year req db i
  rcases h1 : db.transfers[i]? with _ | t <;>
    rcases h2 : db.adjustments[i]? with _ | a <;>
      simp [transferExecuteDB, adjustmentApproveDB, h1, h2]

/-- C5 (counterexample): a Stock row whose quantities are all zero keeps
its stale `total_value` on save even though `unit_cost` is set, so
`total_value = unit_cost * quantity_total` does not hold after every
save. -/
theorem c5_counterexample :
    s0.unit_cost = some 5
      ∧ (stockSave s0).total_value
          ≠ some ((5 : Int) * (quantity_total s0 : Int)) := by
  refine ⟨rfl, by decide⟩

/-- C5 (amended): whenever `unit_cost` is set to a nonzero value and
`quantity_total` is nonzero, `save` recomputes
`total_value = unit_cost * quantity_total`. -/
theorem c5_total_value_recomputed :
    ∀ (s : Stock) (c : Int),
      s.unit_cost = some c → c ≠ 0 → quantity_total s ≠ 0 →
      (stockSave s).total_value = some (c * (quantity_total s : Int)) := by
  intro s c h hc hq
  simp [stockSave, h, hc, hq]

/-- Witness for C5 (amended) at a concrete in-stock row. -/
theorem c5_witness :
    s1.unit_cost = some 5 ∧ (5 : Int) ≠ 0 ∧ quantity_total s1 ≠ 0
      ∧ (stockSave s1).total_value = some ((5 : Int) * (quantity_total s1 : Int)) :=
  ⟨rfl, by decide, by decide,
    c5_total_value_recomputed s1 5 rfl (by decide) (by decide)⟩

/-- C8 (code bug): the `low_stock` filter references the lookup
`stock_buffers`, which resolves to no field or relation on `Stock` (the
schema's only `stock_buffers` related name is on `Warehouse`, and no
model references `Stock`), so every call raises `FieldError` (HTTP 500)
and no Stock row ever appears in its results — while the view's own
comment ("Join with stock buffers to check against minimum levels") and
the spec state the intended union filter.  `low_stock_report`, whose
lookups all resolve, returns exactly the rows at or below the product's
reorder point. -/
theorem c8_low_stock_raises :
    ∀ rows : List StockRow,
      low_stock rows = QueryResult.fieldError "stock_buffers"
      ∧ ormFilter stockModelFields lowStockReportLookups lowStockReportCond rows
          = QueryResult.ok (low_stock_report rows)
      ∧ ∀ r ∈ rows,
          (r ∈ low_stock_report rows ↔
            r.quantity_available ≤ r.reorder_point) := by
  intro rows
  refine ⟨rfl, rfl, ?_⟩
  intro r hr
  rw [low_stock_report, List.mem_filter]
  simp [lowStockReportCond, hr]

/-- Witness for C8 at a store with one row below its reorder point (a
row the original claim requires in both endpoints' results). -/
theorem c8_low_stock_raises_witness :
    rowLow.quantity_available ≤ rowLow.reorder_point
      ∧ rowLow ∈ [rowLow]
      ∧ low_stock [rowLow] = QueryResult.fieldError "stock_buffers"
      ∧ (rowLow ∈ low_stock_report [rowLow] ↔
          rowLow.quantity_available ≤ rowLow.reorder_point) :=
  ⟨by decide, by decide, (c8_low_stock_raises [rowLow]).1,
    (c8_low_stock_raises [rowLow]).2.2 rowLow (by decide)⟩

/-- C9: `Order.save` always recomputes
`total_amount = subtotal + tax + shipping - discount`; in particular
subtotal 100, tax 8, shipping 5, discount 10 gives 103. -/
theorem c9_order_total :
    ∀ (year : Nat) (ex : List Str) (o : Order),
      (orderSave year ex o).total_amount
          = o.subtotal + o.tax_amount + o.shipping_amount - o.discount_amount
      ∧ (orderSave year ex
          { o with
            subtotal := 100, tax_amount := 8, shipping_amount := 5,
            discount_amount := 10 }).total_amount = 103 := by
  intro year ex o
  exact ⟨rfl, by norm_num [orderSave]⟩

end WMS
